import Mathlib

/-!
Verification of the RK4 fixed-step ODE integrator in
`src/Experiments/ODE_Solvers/ode_solvers.py`.

The state is modelled as a `List ℚ` (a numpy 1-d array of reals is
idealised as a rational vector).  numpy's elementwise addition with
broadcasting and its row-assignment semantics are modelled explicitly,
since the source relies on them; operations that can raise a Python
exception return `Except String`.
-/

namespace OdeSolvers

/-- numpy elementwise addition of two 1-d arrays, with broadcasting:
arrays of equal length add pointwise, a length-1 array is broadcast
against the other operand, and any other length mismatch raises a
`ValueError`. -/
def npAdd (a b : List ℚ) : Except String (List ℚ) :=
  if a.length = b.length then .ok (List.zipWith (· + ·) a b)
  else if a.length = 1 then .ok (b.map (fun x => a.headI + x))
  else if b.length = 1 then .ok (a.map (fun x => x + b.headI))
  else .error "ValueError: operands could not be broadcast together"

/-- numpy assignment of a 1-d array `v` into a row of width `d`
(`state[i+1] = v` in the source): an exact-length value is stored as is,
a length-1 value is broadcast across the row, anything else raises a
`ValueError`. -/
def npAssignRow (d : Nat) (v : List ℚ) : Except String (List ℚ) :=
  if v.length = d then .ok v
  else if v.length = 1 then .ok (List.replicate d v.headI)
  else .error "ValueError: could not broadcast input array"

/-- One iteration of the loop body of `runge_kutta4` in the source:
`k1 = f(state[i], t[i], params) * dt`, `k2 = f(state[i] + k1/2, t[i] + dt/2, params) * dt`,
`k3 = f(state[i] + k2/2, t[i] + dt/2, params) * dt`, `k4 = f(state[i] + k3, t[i] + dt, params) * dt`,
`state[i+1] = state[i] + (k1 + 2*k2 + 2*k3 + k4) / 6`.
Scalar multiplication and division map over the array; the additions and
the final row assignment follow numpy semantics (`npAdd`, `npAssignRow`,
where `d` is the row width `len(state0)`). -/
def rk4Step {P : Type} (f : List ℚ → ℚ → P → List ℚ) (d : Nat) (dt : ℚ)
    (params : P) (s : List ℚ) (t : ℚ) : Except String (List ℚ) := do
  let k1 := (f s t params).map (fun x => x * dt)
  let s2 ← npAdd s (k1.map (fun x => x / 2))
  let k2 := (f s2 (t + dt / 2) params).map (fun x => x * dt)
  let s3 ← npAdd s (k2.map (fun x => x / 2))
  let k3 := (f s3 (t + dt / 2) params).map (fun x => x * dt)
  let s4 ← npAdd s k3
  let k4 := (f s4 (t + dt) params).map (fun x => x * dt)
  let t1 ← npAdd k1 (k2.map (fun x => 2 * x))
  let t2 ← npAdd t1 (k3.map (fun x => 2 * x))
  let t3 ← npAdd t2 k4
  let incr ← npAdd s (t3.map (fun x => x / 6))
  npAssignRow d incr

/-- The `for i in range(n-1)` loop of `runge_kutta4`: starting from row
`s` at time `t`, perform `steps` RK4 iterations, returning the list of
all `steps + 1` rows of the state array.  The time passed to step `i`
is `t0 + i*dt`, exactly the `i`-th entry of the `np.arange` grid. -/
def rk4Iter {P : Type} (f : List ℚ → ℚ → P → List ℚ) (d : Nat) (dt : ℚ)
    (params : P) : Nat → List ℚ → ℚ → Except String (List (List ℚ))
  | 0, s, _ => .ok [s]
  | steps + 1, s, t => do
    let s2 ← rk4Step f d dt params s t
    let rest ← rk4Iter f d dt params steps s2 (t + dt)
    .ok (s :: rest)

/-- Length of `np.arange(t0, tf, dt)`: `max 0 ⌈(tf - t0)/dt⌉` samples;
`dt = 0` raises a `ZeroDivisionError`. -/
def arangeLen (t0 tf dt : ℚ) : Except String Nat :=
  if dt = 0 then .error "ZeroDivisionError: division by zero"
  else .ok (⌈(tf - t0) / dt⌉).toNat

/-- The contents of `np.arange(t0, tf, dt)` when it has `n` entries:
entry `k` is `t0 + k*dt`. -/
def arangeList (t0 dt : ℚ) (n : Nat) : List ℚ :=
  List.map (fun k : Nat => t0 + (k : ℚ) * dt) (List.range n)

/-- `runge_kutta4(f, state0, t_span, dt, params)` from the source:
build the time grid `t = np.arange(t0, tf, dt)` with `n = len(t)`,
allocate `state = np.zeros((n, len(state0)))`, assign `state[0] = state0`
(an `IndexError` when `n = 0`), run the RK4 loop for `n - 1` steps, and
return `(t, state)`. -/
def runge_kutta4 {P : Type} (f : List ℚ → ℚ → P → List ℚ) (state0 : List ℚ)
    (t_span : ℚ × ℚ) (dt : ℚ) (params : P) :
    Except String (List ℚ × List (List ℚ)) := do
  let t0 := t_span.1
  let tf := t_span.2
  let n ← arangeLen t0 tf dt
  if n = 0 then
    .error "IndexError: index 0 is out of bounds for axis 0 with size 0"
  else do
    let states ← rk4Iter f state0.length dt params (n - 1) state0 t0
    .ok (arangeList t0 dt n, states)

/-- `dc_motor_ode(state, t, params)` from the source: unpack
`ω, i = state` and `J, b, Kt, Ke, R, L, u = params` (a `ValueError`
when either has the wrong arity) and return
`[(Kt*i - b*ω)/J, (u - R*i - Ke*ω)/L]`. -/
def dc_motor_ode (state : List ℚ) (t : ℚ) (params : List ℚ) :
    Except String (List ℚ) :=
  match state, params with
  | [ω, i], [J, b, Kt, Ke, R, L, u] =>
    .ok [(Kt * i - b * ω) / J, (u - R * i - Ke * ω) / L]
  | _, _ => .error "ValueError: wrong number of values to unpack"

/-! Spec-side definitions: the classical RK4 recurrence exactly as the
specification states it, with `k_i` the raw derivative evaluations
(not pre-multiplied by `dt`) and all arithmetic elementwise. -/

/-- Elementwise addition of two state vectors (the spec's `+`). -/
def vadd (a b : List ℚ) : List ℚ := List.zipWith (· + ·) a b

/-- Elementwise scalar multiplication (the spec's `c · v`). -/
def vsmul (c : ℚ) (a : List ℚ) : List ℚ := a.map (fun x => c * x)

/-- The classical RK4 update as written in the specification:
`k1 = f(s, t, p)`, `k2 = f(s + dt/2·k1, t + dt/2, p)`,
`k3 = f(s + dt/2·k2, t + dt/2, p)`, `k4 = f(s + dt·k3, t + dt, p)`,
`s_next = s + dt/6 · (k1 + 2·k2 + 2·k3 + k4)`. -/
def classicalRK4Step {P : Type} (f : List ℚ → ℚ → P → List ℚ) (params : P)
    (dt : ℚ) (s : List ℚ) (t : ℚ) : List ℚ :=
  let k1 := f s t params
  let k2 := f (vadd s (vsmul (dt / 2) k1)) (t + dt / 2) params
  let k3 := f (vadd s (vsmul (dt / 2) k2)) (t + dt / 2) params
  let k4 := f (vadd s (vsmul dt k3)) (t + dt) params
  vadd s (vsmul (dt / 6) (vadd (vadd (vadd k1 (vsmul 2 k2)) (vsmul 2 k3)) k4))

/-- The trajectory obtained by iterating the classical RK4 update
`steps` times from state `s` at time `t` (so `steps + 1` samples). -/
def classicalTraj {P : Type} (f : List ℚ → ℚ → P → List ℚ) (params : P)
    (dt : ℚ) : Nat → List ℚ → ℚ → List (List ℚ)
  | 0, s, _ => [s]
  | steps + 1, s, t =>
    s :: classicalTraj f params dt steps (classicalRK4Step f params dt s t) (t + dt)

/-! Basic lemmas about the embedded operations. -/

/-- Binding a successful `Except` computation applies the continuation. -/
lemma ok_bind {ε α β : Type} (a : α) (k : α → Except ε β) :
    (Except.ok a >>= k : Except ε β) = k a := rfl

/-- Binding a failed `Except` computation propagates the error. -/
lemma error_bind {ε α β : Type} (e : ε) (k : α → Except ε β) :
    (Except.error e >>= k : Except ε β) = .error e := rfl

/-- On arrays of equal length, numpy addition is elementwise addition. -/
lemma npAdd_eq_vadd {a b : List ℚ} (h : a.length = b.length) :
    npAdd a b = .ok (vadd a b) := by
  simp [npAdd, h, vadd]

/-- numpy addition fails when the lengths differ and neither operand can
be broadcast. -/
lemma npAdd_error {a b : List ℚ} (h1 : a.length ≠ b.length)
    (h2 : a.length ≠ 1) (h3 : b.length ≠ 1) :
    npAdd a b = .error "ValueError: operands could not be broadcast together" := by
  simp [npAdd, h1, h2, h3]

/-- Assigning a value of exactly the row width succeeds unchanged. -/
lemma npAssignRow_of_length {d : Nat} {v : List ℚ} (h : v.length = d) :
    npAssignRow d v = .ok v := by
  simp [npAssignRow, h]

@[simp] lemma vadd_length (a b : List ℚ) :
    (vadd a b).length = min a.length b.length := by
  simp [vadd]

@[simp] lemma vsmul_length (c : ℚ) (a : List ℚ) :
    (vsmul c a).length = a.length := by
  simp [vsmul]

/-- The source computes `k1 * dt` first and then halves it; the spec
multiplies by `dt/2` directly.  Both give the same array. -/
lemma npAdd_half_step (dt : ℚ) {s l : List ℚ} (h : s.length = l.length) :
    npAdd s ((l.map (fun x => x * dt)).map (fun x => x / 2)) =
      .ok (vadd s (vsmul (dt / 2) l)) := by
  rw [npAdd_eq_vadd (by simp [h])]
  unfold vadd vsmul
  congr 1
  apply List.ext_getElem
  · simp
  · intro n h1 h2
    simp only [List.getElem_zipWith, List.getElem_map]
    ring

/-- The source computes `s + k3` with `k3 = f(...) * dt`; the spec writes
`s + dt·k3` with the raw derivative.  Both give the same array. -/
lemma npAdd_full_step (dt : ℚ) {s l : List ℚ} (h : s.length = l.length) :
    npAdd s (l.map (fun x => x * dt)) = .ok (vadd s (vsmul dt l)) := by
  rw [npAdd_eq_vadd (by simp [h])]
  unfold vadd vsmul
  congr 1
  apply List.ext_getElem
  · simp
  · intro n h1 h2
    simp only [List.getElem_zipWith, List.getElem_map]
    ring

/-- The source's weighted sum `s + (k1 + 2*k2 + 2*k3 + k4)/6` (with each
`k_i` already multiplied by `dt`) equals the spec's
`s + dt/6 · (k1 + 2·k2 + 2·k3 + k4)` (with raw `k_i`). -/
lemma rk4_sum (dt : ℚ) (s a b c e : List ℚ) :
    vadd s ((vadd (vadd (vadd (a.map (fun x => x * dt))
        (((b.map (fun x => x * dt))).map (fun x => 2 * x)))
        (((c.map (fun x => x * dt))).map (fun x => 2 * x)))
        (e.map (fun x => x * dt))).map (fun x => x / 6)) =
      vadd s (vsmul (dt / 6) (vadd (vadd (vadd a (vsmul 2 b)) (vsmul 2 c)) e)) := by
  unfold vadd vsmul
  apply List.ext_getElem
  · simp
  · intro n h1 h2
    simp only [List.getElem_zipWith, List.getElem_map]
    ring

/-! The code's step agrees with the spec's classical RK4 step whenever the
vector field preserves the state's dimensionality. -/

/-- The classical RK4 step preserves the state dimension when the field
does. -/
lemma classicalRK4Step_length {P : Type} (f : List ℚ → ℚ → P → List ℚ)
    (params : P) (dt : ℚ) (d : Nat) (s : List ℚ) (t : ℚ) (hs : s.length = d)
    (hf : ∀ s' t', s'.length = d → (f s' t' params).length = d) :
    (classicalRK4Step f params dt s t).length = d := by
  have h1 : (f s t params).length = d := hf s t hs
  have hS2 : (vadd s (vsmul (dt / 2) (f s t params))).length = d := by
    simp [hs, h1]
  have h2 := hf _ (t + dt / 2) hS2
  have hS3 : (vadd s (vsmul (dt / 2)
      (f (vadd s (vsmul (dt / 2) (f s t params))) (t + dt / 2) params))).length = d := by
    simp [hs, h2]
  have h3 := hf _ (t + dt / 2) hS3
  have hS4 : (vadd s (vsmul dt
      (f (vadd s (vsmul (dt / 2)
        (f (vadd s (vsmul (dt / 2) (f s t params))) (t + dt / 2) params)))
        (t + dt / 2) params))).length = d := by
    simp [hs, h3]
  have h4 := hf _ (t + dt) hS4
  simp [classicalRK4Step, hs, h1, h2, h3, h4]

/-- One iteration of the source loop computes exactly the classical RK4
update of the specification, with no error, provided the field preserves
the state's dimensionality. -/
lemma rk4Step_eq_classical {P : Type} (f : List ℚ → ℚ → P → List ℚ)
    (params : P) (dt : ℚ) (d : Nat) (s : List ℚ) (t : ℚ) (hs : s.length = d)
    (hf : ∀ s' t', s'.length = d → (f s' t' params).length = d) :
    rk4Step f d dt params s t = .ok (classicalRK4Step f params dt s t) := by
  have h1 : (f s t params).length = d := hf s t hs
  have hS2 : (vadd s (vsmul (dt / 2) (f s t params))).length = d := by
    simp [hs, h1]
  have h2 := hf _ (t + dt / 2) hS2
  have hS3 : (vadd s (vsmul (dt / 2)
      (f (vadd s (vsmul (dt / 2) (f s t params))) (t + dt / 2) params))).length = d := by
    simp [hs, h2]
  have h3 := hf _ (t + dt / 2) hS3
  have hS4 : (vadd s (vsmul dt
      (f (vadd s (vsmul (dt / 2)
        (f (vadd s (vsmul (dt / 2) (f s t params))) (t + dt / 2) params)))
        (t + dt / 2) params))).length = d := by
    simp [hs, h3]
  have h4 := hf _ (t + dt) hS4
  simp only [rk4Step]
  rw [npAdd_half_step dt (by rw [hs, h1]), ok_bind]
  rw [npAdd_half_step dt (by rw [hs, h2]), ok_bind]
  rw [npAdd_full_step dt (by rw [hs, h3]), ok_bind]
  rw [npAdd_eq_vadd (by simp [h1, h2]), ok_bind]
  rw [npAdd_eq_vadd (by simp [h1, h2, h3]), ok_bind]
  rw [npAdd_eq_vadd (by simp [h1, h2, h3, h4]), ok_bind]
  rw [npAdd_eq_vadd (by simp [hs, h1, h2, h3, h4]), ok_bind]
  rw [npAssignRow_of_length (by simp [hs, h1, h2, h3, h4])]
  rw [rk4_sum]
  rfl

/-- The source loop computes exactly the classical RK4 trajectory. -/
lemma rk4Iter_eq_classical {P : Type} (f : List ℚ → ℚ → P → List ℚ)
    (params : P) (dt : ℚ) (d : Nat)
    (hf : ∀ s' t', s'.length = d → (f s' t' params).length = d) :
    ∀ (k : Nat) (s : List ℚ) (t : ℚ), s.length = d →
      rk4Iter f d dt params k s t = .ok (classicalTraj f params dt k s t) := by
  intro k
  induction k with
  | zero => intro s t _; rfl
  | succ k ih =>
    intro s t hs
    simp only [rk4Iter, classicalTraj]
    rw [rk4Step_eq_classical f params dt d s t hs hf, ok_bind,
      ih _ _ (classicalRK4Step_length f params dt d s t hs hf), ok_bind]

/-! Structural facts about the classical trajectory. -/

lemma classicalTraj_length {P : Type} (f : List ℚ → ℚ → P → List ℚ)
    (params : P) (dt : ℚ) :
    ∀ (k : Nat) (s : List ℚ) (t : ℚ),
      (classicalTraj f params dt k s t).length = k + 1 := by
  intro k
  induction k with
  | zero => intro s t; rfl
  | succ k ih => intro s t; simp [classicalTraj, ih]

lemma classicalTraj_getD_zero {P : Type} (f : List ℚ → ℚ → P → List ℚ)
    (params : P) (dt : ℚ) (k : Nat) (s : List ℚ) (t : ℚ) :
    (classicalTraj f params dt k s t).getD 0 [] = s := by
  cases k <;> rfl

/-- Sample `i + 1` of the classical trajectory is the classical RK4 update
of sample `i`, evaluated at time `t + i·dt`. -/
lemma classicalTraj_getD_succ {P : Type} (f : List ℚ → ℚ → P → List ℚ)
    (params : P) (dt : ℚ) :
    ∀ (k i : Nat) (s : List ℚ) (t : ℚ), i + 1 ≤ k →
      (classicalTraj f params dt k s t).getD (i + 1) [] =
        classicalRK4Step f params dt
          ((classicalTraj f params dt k s t).getD i []) (t + (i : ℚ) * dt) := by
  intro k
  induction k with
  | zero => intro i s t h; exact absurd h (by omega)
  | succ k ih =>
    intro i s t h
    cases i with
    | zero =>
      simp only [classicalTraj, List.getD_cons_succ, List.getD_cons_zero,
        classicalTraj_getD_zero]
      norm_num
    | succ i =>
      simp only [classicalTraj, List.getD_cons_succ]
      rw [ih i _ _ (by omega)]
      congr 1
      push_cast
      ring

lemma classicalTraj_mem_length {P : Type} (f : List ℚ → ℚ → P → List ℚ)
    (params : P) (dt : ℚ) (d : Nat)
    (hf : ∀ s' t', s'.length = d → (f s' t' params).length = d) :
    ∀ (k : Nat) (s : List ℚ) (t : ℚ), s.length = d →
      ∀ x ∈ classicalTraj f params dt k s t, x.length = d := by
  intro k
  induction k with
  | zero =>
    intro s t hs x hx
    simp only [classicalTraj, List.mem_singleton] at hx
    subst hx
    exact hs
  | succ k ih =>
    intro s t hs x hx
    simp only [classicalTraj, List.mem_cons] at hx
    rcases hx with rfl | hx
    · exact hs
    · exact ih _ _ (classicalRK4Step_length f params dt d s t hs hf) x hx

/-! The whole integrator on a well-formed call. -/

/-- On a forward time span with a positive step and a
dimension-preserving field, `runge_kutta4` succeeds and returns the
`np.arange` grid paired with the classical RK4 trajectory. -/
lemma runge_kutta4_ok {P : Type} (f : List ℚ → ℚ → P → List ℚ)
    (state0 : List ℚ) (t0 tf dt : ℚ) (params : P)
    (ht : t0 < tf) (hdt : 0 < dt)
    (hf : ∀ s t, s.length = state0.length → (f s t params).length = state0.length) :
    runge_kutta4 f state0 (t0, tf) dt params =
      .ok (arangeList t0 dt (⌈(tf - t0) / dt⌉).toNat,
        classicalTraj f params dt ((⌈(tf - t0) / dt⌉).toNat - 1) state0 t0) := by
  have hdt0 : dt ≠ 0 := ne_of_gt hdt
  have hq : 0 < (tf - t0) / dt := div_pos (by linarith) hdt
  have hc : 0 < ⌈(tf - t0) / dt⌉ := Int.ceil_pos.mpr hq
  have hn : (⌈(tf - t0) / dt⌉).toNat ≠ 0 := by omega
  simp only [runge_kutta4, arangeLen, if_neg hdt0, ok_bind]
  rw [if_neg hn]
  rw [rk4Iter_eq_classical f params dt state0.length hf _ state0 t0 rfl, ok_bind]

/-- Whenever the loop succeeds, the first row is the start state. -/
lemma rk4Iter_ok_head {P : Type} {f : List ℚ → ℚ → P → List ℚ} {d : Nat}
    {dt : ℚ} {params : P} {k : Nat} {s : List ℚ} {t : ℚ} {l : List (List ℚ)}
    (h : rk4Iter f d dt params k s t = .ok l) : l.getD 0 [] = s := by
  cases k with
  | zero =>
    simp only [rk4Iter] at h
    injection h with h2
    rw [← h2]
    rfl
  | succ k =>
    simp only [rk4Iter] at h
    cases hstep : rk4Step f d dt params s t with
    | error e => rw [hstep, error_bind] at h; exact Except.noConfusion h
    | ok s2 =>
      rw [hstep, ok_bind] at h
      cases hrest : rk4Iter f d dt params k s2 (t + dt) with
      | error e => rw [hrest, error_bind] at h; exact Except.noConfusion h
      | ok rest =>
        rw [hrest, ok_bind] at h
        injection h with h2
        rw [← h2]
        rfl

/-! Facts about the `np.arange` time grid. -/

lemma arangeList_length (t0 dt : ℚ) (n : Nat) :
    (arangeList t0 dt n).length = n := by
  rw [arangeList, List.length_map, List.length_range]

lemma arangeList_getD {t0 dt : ℚ} {n k : Nat} (h : k < n) :
    (arangeList t0 dt n).getD k 0 = t0 + (k : ℚ) * dt := by
  rw [arangeList,
    List.getD_eq_getElem _ _ (by rw [List.length_map, List.length_range]; exact h),
    List.getElem_map, List.getElem_range]

/-! The claims. -/

/-- C1: for every dimension-preserving vector field, initial state, time
span with `t0 < tf`, step `dt > 0` and parameters, `runge_kutta4`
returns a trajectory whose states satisfy the classical RK4 recurrence
`states[i+1] = states[i] + dt/6·(k1 + 2·k2 + 2·k3 + k4)` (with the
`k_i` as in the specification, elementwise) at every index
`i ≤ n - 2`, the update being applied for exactly `n - 1` steps. -/
theorem rk4_classical_recurrence {P : Type} (f : List ℚ → ℚ → P → List ℚ)
    (state0 : List ℚ) (t0 tf dt : ℚ) (params : P)
    (ht : t0 < tf) (hdt : 0 < dt)
    (hf : ∀ s t, s.length = state0.length → (f s t params).length = state0.length) :
    ∃ ts ss, runge_kutta4 f state0 (t0, tf) dt params = .ok (ts, ss) ∧
      ss.length = (⌈(tf - t0) / dt⌉).toNat ∧
      ∀ i : Nat, i + 1 < ss.length →
        ss.getD (i + 1) [] =
          classicalRK4Step f params dt (ss.getD i []) (t0 + (i : ℚ) * dt) := by
  have hc : 0 < ⌈(tf - t0) / dt⌉ := Int.ceil_pos.mpr (div_pos (by linarith) hdt)
  have hlen : (classicalTraj f params dt ((⌈(tf - t0) / dt⌉).toNat - 1) state0 t0).length
      = (⌈(tf - t0) / dt⌉).toNat := by
    rw [classicalTraj_length]
    omega
  refine ⟨_, _, runge_kutta4_ok f state0 t0 tf dt params ht hdt hf, hlen, ?_⟩
  intro i hi
  rw [hlen] at hi
  exact classicalTraj_getD_succ f params dt _ i state0 t0 (by omega)

/-- Witness for C1 at the identity field, `state0 = [1]`, span `(0, 1)`,
step `1/2`. -/
theorem rk4_classical_recurrence_witness :
    ∃ ts ss, runge_kutta4 (fun s _ _ => s) [(1 : ℚ)] ((0 : ℚ), (1 : ℚ)) (1 / 2) () =
        .ok (ts, ss) ∧
      ss.length = (⌈(1 - 0 : ℚ) / (1 / 2)⌉).toNat ∧
      ∀ i : Nat, i + 1 < ss.length →
        ss.getD (i + 1) [] =
          classicalRK4Step (fun s _ _ => s) () (1 / 2) (ss.getD i [])
            (0 + (i : ℚ) * (1 / 2)) :=
  rk4_classical_recurrence (fun s _ _ => s) [1] 0 1 (1 / 2) ()
    (by norm_num) (by norm_num) (fun _ _ h => h)

/-- C2: for every state `(ω, i)` and parameter tuple
`(J, b, Kt, Ke, R, L, u)` with `J ≠ 0` and `L ≠ 0`, `dc_motor_ode`
returns the derivative pair `((Kt·i − b·ω)/J, (u − R·i − Ke·ω)/L)`,
regardless of the time argument. -/
theorem dc_motor_ode_correct (ω i t J b Kt Ke R L u : ℚ)
    (hJ : J ≠ 0) (hL : L ≠ 0) :
    dc_motor_ode [ω, i] t [J, b, Kt, Ke, R, L, u] =
      .ok [(Kt * i - b * ω) / J, (u - R * i - Ke * ω) / L] := rfl

/-- Witness for C2 at a concrete state, time and parameter tuple. -/
theorem dc_motor_ode_correct_witness :
    dc_motor_ode [(2 : ℚ), 3] 5 [1, 1, 1, 1, 1, 1, 1] =
      .ok [(1 * 3 - 1 * 2) / 1, (1 - 1 * 3 - 1 * 2) / 1] :=
  dc_motor_ode_correct 2 3 5 1 1 1 1 1 1 1 (by norm_num) (by norm_num)

/-- C3: on a valid run (`t0 < tf`, `dt > 0`, dimension-preserving field)
the trajectory has `len(times) = len(states) = n = ⌈(tf − t0)/dt⌉`,
sample times `times[k] = t0 + k·dt` that are strictly increasing with
`times[n−1] < tf ≤ times[n−1] + dt`, and every state has the same
dimensionality as the initial state. -/
theorem rk4_trajectory_invariants {P : Type} (f : List ℚ → ℚ → P → List ℚ)
    (state0 : List ℚ) (t0 tf dt : ℚ) (params : P)
    (ht : t0 < tf) (hdt : 0 < dt)
    (hf : ∀ s t, s.length = state0.length → (f s t params).length = state0.length) :
    ∃ n ts ss, runge_kutta4 f state0 (t0, tf) dt params = .ok (ts, ss) ∧
      n = (⌈(tf - t0) / dt⌉).toNat ∧ ts.length = n ∧ ss.length = n ∧
      (∀ k : Nat, k < n → ts.getD k 0 = t0 + (k : ℚ) * dt) ∧
      (∀ k : Nat, k + 1 < n → ts.getD k 0 < ts.getD (k + 1) 0) ∧
      ts.getD (n - 1) 0 < tf ∧ tf ≤ ts.getD (n - 1) 0 + dt ∧
      (∀ s ∈ ss, s.length = state0.length) := by
  have hdt0 : dt ≠ 0 := ne_of_gt hdt
  have hq : 0 < (tf - t0) / dt := div_pos (by linarith) hdt
  have hc : 0 < ⌈(tf - t0) / dt⌉ := Int.ceil_pos.mpr hq
  have hn1 : 1 ≤ (⌈(tf - t0) / dt⌉).toNat := by omega
  have hcast : (((⌈(tf - t0) / dt⌉).toNat : ℚ)) = ((⌈(tf - t0) / dt⌉ : ℤ) : ℚ) := by
    exact_mod_cast congrArg (fun z : ℤ => (z : ℚ)) (Int.toNat_of_nonneg hc.le)
  have hx : ((tf - t0) / dt) * dt = tf - t0 := div_mul_cancel₀ _ hdt0
  have hnm1 : (((⌈(tf - t0) / dt⌉).toNat - 1 : Nat) : ℚ)
      = (((⌈(tf - t0) / dt⌉).toNat : ℚ)) - 1 := by
    rw [Nat.cast_sub hn1, Nat.cast_one]
  refine ⟨(⌈(tf - t0) / dt⌉).toNat, _, _,
    runge_kutta4_ok f state0 t0 tf dt params ht hdt hf, rfl,
    arangeList_length t0 dt _, ?_, ?_, ?_, ?_, ?_, ?_⟩
  · rw [classicalTraj_length]; omega
  · intro k hk
    exact arangeList_getD hk
  · intro k hk
    rw [arangeList_getD (by omega), arangeList_getD hk]
    push_cast
    have h9 : ((k : ℚ) + 1) * dt = (k : ℚ) * dt + dt := by ring
    rw [h9]
    linarith
  · rw [arangeList_getD (by omega)]
    have h5 : (((⌈(tf - t0) / dt⌉).toNat - 1 : Nat) : ℚ) < (tf - t0) / dt := by
      rw [hnm1, hcast]
      linarith [Int.ceil_lt_add_one ((tf - t0) / dt)]
    have h6 := mul_lt_mul_of_pos_right h5 hdt
    rw [hx] at h6
    linarith
  · rw [arangeList_getD (by omega)]
    have h7 : (tf - t0) / dt ≤ (((⌈(tf - t0) / dt⌉).toNat : ℚ)) := by
      rw [hcast]
      exact_mod_cast Int.le_ceil ((tf - t0) / dt)
    have h8 := mul_le_mul_of_nonneg_right h7 hdt.le
    rw [hx] at h8
    have h9 : ((((⌈(tf - t0) / dt⌉).toNat : ℚ)) - 1) * dt + dt
        = (((⌈(tf - t0) / dt⌉).toNat : ℚ)) * dt := by ring
    rw [hnm1]
    linarith
  · exact classicalTraj_mem_length f params dt state0.length hf _ state0 t0 rfl

/-- Witness for C3 at the identity field, the spec's sample-count
instance `t0 = 0`, `tf = 2`, `dt = 1/100`: the trajectory has exactly
200 samples with `times[0] = 0`. -/
theorem rk4_trajectory_invariants_witness :
    (⌈(2 - 0 : ℚ) / (1 / 100)⌉).toNat = 200 ∧
    ∃ n ts ss,
      runge_kutta4 (fun s _ _ => s) [(1 : ℚ)] ((0 : ℚ), (2 : ℚ)) (1 / 100) () =
        .ok (ts, ss) ∧
      n = (⌈(2 - 0 : ℚ) / (1 / 100)⌉).toNat ∧ ts.length = n ∧ ss.length = n ∧
      (∀ k : Nat, k < n → ts.getD k 0 = 0 + (k : ℚ) * (1 / 100)) ∧
      (∀ k : Nat, k + 1 < n → ts.getD k 0 < ts.getD (k + 1) 0) ∧
      ts.getD (n - 1) 0 < 2 ∧ (2 : ℚ) ≤ ts.getD (n - 1) 0 + 1 / 100 ∧
      (∀ s ∈ ss, s.length = ([(1 : ℚ)] : List ℚ).length) :=
  ⟨by norm_num [show Int.toNat 200 = 200 from rfl],
    rk4_trajectory_invariants (fun s _ _ => s) [1] 0 2 (1 / 100) ()
      (by norm_num) (by norm_num) (fun _ _ h => h)⟩

/-- C4: whenever `runge_kutta4` returns a trajectory, its first state is
exactly the supplied initial state — no integration step is applied at
`t0`. -/
theorem rk4_first_sample {P : Type} (f : List ℚ → ℚ → P → List ℚ)
    (state0 : List ℚ) (t0 tf dt : ℚ) (params : P)
    (ts : List ℚ) (ss : List (List ℚ))
    (h : runge_kutta4 f state0 (t0, tf) dt params = .ok (ts, ss)) :
    ss.getD 0 [] = state0 := by
  simp only [runge_kutta4, arangeLen] at h
  by_cases hdt : dt = 0
  · rw [if_pos hdt, error_bind] at h
    exact Except.noConfusion h
  · rw [if_neg hdt, ok_bind] at h
    by_cases hn : (⌈(tf - t0) / dt⌉).toNat = 0
    · rw [if_pos hn] at h
      exact Except.noConfusion h
    · rw [if_neg hn] at h
      cases hiter : rk4Iter f state0.length dt params
          ((⌈(tf - t0) / dt⌉).toNat - 1) state0 t0 with
      | error e =>
        rw [hiter, error_bind] at h
        exact Except.noConfusion h
      | ok l =>
        rw [hiter, ok_bind] at h
        injection h with h2
        have hss : l = ss := congrArg Prod.snd h2
        rw [← hss]
        exact rk4Iter_ok_head hiter

/-- Witness for C4: a concrete successful run of the zero field whose
first sample is the initial state `[5]`. -/
theorem rk4_first_sample_witness :
    ∃ ts ss,
      runge_kutta4 (fun s _ _ => s.map (fun _ => (0 : ℚ))) [(5 : ℚ)]
          ((0 : ℚ), (1 : ℚ)) (1 / 2) () = .ok (ts, ss) ∧
      ss.getD 0 [] = [(5 : ℚ)] := by
  have h := runge_kutta4_ok (fun s _ _ => s.map (fun _ => (0 : ℚ)))
    [(5 : ℚ)] 0 1 (1 / 2) () (by norm_num) (by norm_num)
    (fun s t hs => by simpa using hs)
  exact ⟨_, _, h, rk4_first_sample _ _ _ _ _ _ _ _ h⟩

/-! Zero-field lemmas (claim C8). -/

/-- Adding an all-zero array of matching length is the identity. -/
lemma vadd_zero_right : ∀ l : List ℚ, vadd l (List.replicate l.length 0) = l := by
  intro l
  induction l with
  | nil => rfl
  | cons x xs ih =>
    simp only [vadd, List.length_cons, List.replicate_succ, List.zipWith_cons_cons,
      add_zero]
    rw [show List.zipWith (· + ·) xs (List.replicate xs.length 0) = xs from ih]

/-- Scaling an all-zero array gives an all-zero array. -/
lemma vsmul_replicate_zero (c : ℚ) (n : Nat) :
    vsmul c (List.replicate n 0) = List.replicate n 0 := by
  simp [vsmul]

/-- Adding two all-zero arrays gives an all-zero array. -/
lemma vadd_replicate_replicate (n : Nat) :
    vadd (List.replicate n (0 : ℚ)) (List.replicate n 0) = List.replicate n 0 := by
  simp [vadd, List.zipWith_replicate]

/-- The classical RK4 step of the identically-zero field leaves the
state unchanged. -/
lemma classicalRK4Step_zero_field {P : Type} (f : List ℚ → ℚ → P → List ℚ)
    (params : P) (dt : ℚ) (s : List ℚ) (t : ℚ)
    (hf0 : ∀ s' t', f s' t' params = List.replicate s'.length (0 : ℚ)) :
    classicalRK4Step f params dt s t = s := by
  simp only [classicalRK4Step, hf0, vsmul_replicate_zero, vadd_zero_right,
    vadd_replicate_replicate]

/-- Under the identically-zero field every sample of the classical
trajectory is the start state. -/
lemma classicalTraj_zero_field_mem {P : Type} (f : List ℚ → ℚ → P → List ℚ)
    (params : P) (dt : ℚ)
    (hf0 : ∀ s' t', f s' t' params = List.replicate s'.length (0 : ℚ)) :
    ∀ (k : Nat) (s : List ℚ) (t : ℚ),
      ∀ x ∈ classicalTraj f params dt k s t, x = s := by
  intro k
  induction k with
  | zero =>
    intro s t x hx
    simpa [classicalTraj] using hx
  | succ k ih =>
    intro s t x hx
    rw [classicalTraj, classicalRK4Step_zero_field f params dt s t hf0] at hx
    rcases List.mem_cons.mp hx with h | h
    · exact h
    · exact ih s (t + dt) x h

/-- C5 fails on the code as stated: with `dt = -1 ≤ 0` on the span
`(1, 0)` the integrator performs no validation and silently returns a
one-sample trajectory instead of raising an invalid-argument error. -/
theorem rk4_dt_nonpos_counterexample :
    (-1 : ℚ) ≤ 0 ∧
      runge_kutta4 (fun _ _ _ => ([0] : List ℚ)) [(0 : ℚ)] ((1 : ℚ), (0 : ℚ)) (-1) () =
        .ok ([1], [[0]]) := by
  refine ⟨by norm_num, ?_⟩
  have harg : ((0 : ℚ) - 1) / (-1) = 1 := by norm_num
  norm_num [runge_kutta4, arangeLen, harg, rk4Iter, arangeList, List.range_succ,
    ok_bind]

/-- C5 amended: the code has no step-size validation, but for `dt ≤ 0`
on a forward span `t0 < tf` it does fail — `np.arange` raises a
`ZeroDivisionError` when `dt = 0`, and the empty grid raises an
`IndexError` when `dt < 0`.  (On a reversed span `t0 > tf` with
`dt < 0` it silently integrates backwards, as the counterexample
shows.) -/
theorem rk4_dt_nonpos_raises {P : Type} (f : List ℚ → ℚ → P → List ℚ)
    (state0 : List ℚ) (t0 tf dt : ℚ) (params : P)
    (hdt : dt ≤ 0) (ht : t0 < tf) :
    ∃ e, runge_kutta4 f state0 (t0, tf) dt params = .error e := by
  by_cases h0 : dt = 0
  · refine ⟨"ZeroDivisionError: division by zero", ?_⟩
    simp [runge_kutta4, arangeLen, h0, error_bind]
  · have hneg : dt < 0 := lt_of_le_of_ne hdt h0
    refine ⟨"IndexError: index 0 is out of bounds for axis 0 with size 0", ?_⟩
    have hq : (tf - t0) / dt < 0 := div_neg_of_pos_of_neg (by linarith) hneg
    have hc : ⌈(tf - t0) / dt⌉ ≤ 0 := by
      rw [Int.ceil_le]
      push_cast
      linarith
    have hn : (⌈(tf - t0) / dt⌉).toNat = 0 := Int.toNat_of_nonpos hc
    simp only [runge_kutta4, arangeLen, if_neg h0, ok_bind, hn]
    norm_num

/-- Witness for the amended C5 at `dt = -1`, span `(0, 1)`. -/
theorem rk4_dt_nonpos_raises_witness :
    ∃ e, runge_kutta4 (fun _ _ _ => ([0] : List ℚ)) [(0 : ℚ)] ((0 : ℚ), (1 : ℚ))
      (-1) () = .error e :=
  rk4_dt_nonpos_raises (fun _ _ _ => ([0] : List ℚ)) [(0 : ℚ)] 0 1 (-1) ()
    (by norm_num) (by norm_num)

/-- C6 fails on the code: with `t0 = tf = 1` and `dt = 1 > 0` the
integrator does not return an empty trajectory — the unconditional
`state[0] = state0` assignment raises an `IndexError` on the empty state
array. -/
theorem rk4_empty_span_counterexample :
    runge_kutta4 (fun _ _ _ => ([0] : List ℚ)) [(0 : ℚ)] ((1 : ℚ), (1 : ℚ)) 1 () =
        .error "IndexError: index 0 is out of bounds for axis 0 with size 0" ∧
      ∀ ts ss,
        runge_kutta4 (fun _ _ _ => ([0] : List ℚ)) [(0 : ℚ)] ((1 : ℚ), (1 : ℚ)) 1 ()
          ≠ .ok (ts, ss) := by
  have h : runge_kutta4 (fun _ _ _ => ([0] : List ℚ)) [(0 : ℚ)] ((1 : ℚ), (1 : ℚ)) 1 ()
      = .error "IndexError: index 0 is out of bounds for axis 0 with size 0" := by
    norm_num [runge_kutta4, arangeLen, ok_bind]
  refine ⟨h, fun ts ss hok => ?_⟩
  rw [h] at hok
  exact Except.noConfusion hok

/-- C6 amended: for every call with `t0 ≥ tf` and `dt > 0` the sample
grid is empty and the integrator fails with an `IndexError` while
storing the initial state, rather than returning an empty trajectory;
this holds for every field (the field is never evaluated). -/
theorem rk4_empty_span_raises {P : Type} (f : List ℚ → ℚ → P → List ℚ)
    (state0 : List ℚ) (t0 tf dt : ℚ) (params : P)
    (ht : tf ≤ t0) (hdt : 0 < dt) :
    runge_kutta4 f state0 (t0, tf) dt params =
      .error "IndexError: index 0 is out of bounds for axis 0 with size 0" := by
  have h0 : dt ≠ 0 := ne_of_gt hdt
  have hq : (tf - t0) / dt ≤ 0 := by
    rw [div_nonpos_iff]
    right
    constructor <;> linarith
  have hc : ⌈(tf - t0) / dt⌉ ≤ 0 := by
    rw [Int.ceil_le]
    push_cast
    linarith
  have hn : (⌈(tf - t0) / dt⌉).toNat = 0 := Int.toNat_of_nonpos hc
  simp only [runge_kutta4, arangeLen, if_neg h0, ok_bind, hn]
  norm_num

/-- Witness for the amended C6 at `t0 = 2`, `tf = 1`, `dt = 1`. -/
theorem rk4_empty_span_raises_witness :
    runge_kutta4 (fun _ _ _ => ([] : List ℚ)) [(5 : ℚ)] ((2 : ℚ), (1 : ℚ)) 1 () =
      .error "IndexError: index 0 is out of bounds for axis 0 with size 0" :=
  rk4_empty_span_raises (fun _ _ _ => ([] : List ℚ)) [(5 : ℚ)] 2 1 1 ()
    (by norm_num) (by norm_num)

/-- C7 fails on the code: a field returning a length-1 derivative for a
length-2 state is silently broadcast by numpy — the integrator returns a
trajectory instead of reporting the dimensionality mismatch. -/
theorem rk4_dim_mismatch_counterexample :
    ((fun (_ : List ℚ) (_ : ℚ) (_ : Unit) => ([1] : List ℚ)) [0, 0] 0 ()).length ≠
        ([(0 : ℚ), 0] : List ℚ).length ∧
      runge_kutta4 (fun _ _ _ => ([1] : List ℚ)) [(0 : ℚ), 0] ((0 : ℚ), (2 : ℚ)) 1 () =
        .ok ([0, 1], [[0, 0], [1, 1]]) := by
  refine ⟨by norm_num, ?_⟩
  norm_num [runge_kutta4, arangeLen, rk4Iter, rk4Step, npAdd, npAssignRow,
    arangeList, ok_bind, List.range_succ, show Int.toNat 2 = 2 from rfl]

/-- Broadcast addition with a length-1 left operand against a
non-length-1 right operand stretches the left one. -/
lemma npAdd_left_one (a b : List ℚ) (ha : a.length = 1) (hb : b.length ≠ 1) :
    npAdd a b = .ok (b.map (fun x => a.headI + x)) := by
  unfold npAdd
  rw [if_neg (by omega), if_pos ha]

/-- Broadcast addition with a length-1 right operand against a
non-length-1 left operand stretches the right one. -/
lemma npAdd_right_one (a b : List ℚ) (ha : a.length ≠ 1) (hb : b.length = 1) :
    npAdd a b = .ok (a.map (fun x => x + b.headI)) := by
  unfold npAdd
  rw [if_neg (by omega), if_neg ha, if_pos hb]

/-- Row assignment of a value that neither matches the row width nor has
length 1 raises a `ValueError`. -/
lemma npAssignRow_error {d : Nat} {v : List ℚ} (h1 : v.length ≠ d)
    (h2 : v.length ≠ 1) :
    npAssignRow d v = .error "ValueError: could not broadcast input array" := by
  simp [npAssignRow, h1, h2]

/-- With a field that always returns a length-1 derivative and a state
width other than 1, every step succeeds: each addition broadcasts the
derivative across the state and the resulting row keeps the state's
width. -/
lemma rk4Step_ok_of_one {P : Type} (f : List ℚ → ℚ → P → List ℚ)
    (params : P) (dt : ℚ) (d : Nat) (hd1 : d ≠ 1)
    (hf : ∀ s' t', (f s' t' params).length = 1)
    (s : List ℚ) (t : ℚ) (hs : s.length = d) :
    ∃ r, rk4Step f d dt params s t = .ok r ∧ r.length = d := by
  have hsne : s.length ≠ 1 := by rw [hs]; exact hd1
  refine ⟨?_, ?_, ?_⟩
  rotate_left
  · simp only [rk4Step]
    rw [npAdd_right_one _ _ hsne (by simp only [List.length_map, hf]), ok_bind]
    rw [npAdd_right_one _ _ hsne (by simp only [List.length_map, hf]), ok_bind]
    rw [npAdd_right_one _ _ hsne (by simp only [List.length_map, hf]), ok_bind]
    rw [npAdd_eq_vadd (by simp only [List.length_map, hf]), ok_bind]
    rw [npAdd_eq_vadd
      (by simp only [vadd_length, List.length_map, hf, min_self]), ok_bind]
    rw [npAdd_eq_vadd
      (by simp only [vadd_length, List.length_map, hf, min_self]), ok_bind]
    rw [npAdd_right_one _ _ hsne
      (by simp only [List.length_map, vadd_length, hf, min_self]), ok_bind]
    rw [npAssignRow_of_length (by simp only [List.length_map]; exact hs)]
    exact rfl
  · simp only [List.length_map]
    exact hs

/-- With a length-1 derivative and a state width other than 1, the whole
loop succeeds. -/
lemma rk4Iter_ok_of_one {P : Type} (f : List ℚ → ℚ → P → List ℚ)
    (params : P) (dt : ℚ) (d : Nat) (hd1 : d ≠ 1)
    (hf : ∀ s' t', (f s' t' params).length = 1) :
    ∀ (k : Nat) (s : List ℚ) (t : ℚ), s.length = d →
      ∃ l, rk4Iter f d dt params k s t = .ok l := by
  intro k
  induction k with
  | zero => intro s t _; exact ⟨[s], rfl⟩
  | succ k ih =>
    intro s t hs
    obtain ⟨r, hr, hrl⟩ := rk4Step_ok_of_one f params dt d hd1 hf s t hs
    obtain ⟨l, hl⟩ := ih r (t + dt) hrl
    refine ⟨s :: l, ?_⟩
    simp only [rk4Iter]
    rw [hr, ok_bind, hl, ok_bind]

/-- C7 amended: if the field returns a derivative of dimension `m`
different from the state dimension, the integrator raises a broadcast
`ValueError` whenever `m ≠ 1` — at the first elementwise addition when
the state dimension is not 1, or at the `state[i+1]` row assignment
when it is — but when `m = 1` numpy broadcasting silently stretches the
derivative and a trajectory is returned with no error (the
counterexample exhibits this at state dimension 2). -/
theorem rk4_dim_mismatch_behavior {P : Type} (f : List ℚ → ℚ → P → List ℚ)
    (state0 : List ℚ) (t0 tf dt : ℚ) (params : P) (m : Nat)
    (hf : ∀ s t, (f s t params).length = m)
    (hmd : m ≠ state0.length)
    (ht : t0 < tf) (hdt : 0 < dt) (hstep : t0 + dt < tf) :
    (m ≠ 1 → ∃ e, runge_kutta4 f state0 (t0, tf) dt params = .error e) ∧
    (m = 1 → ∃ ts ss, runge_kutta4 f state0 (t0, tf) dt params = .ok (ts, ss)) := by
  have hdt0 : dt ≠ 0 := ne_of_gt hdt
  have hq : (1 : ℚ) < (tf - t0) / dt := by
    rw [lt_div_iff₀ hdt]
    linarith
  have hc : (1 : ℤ) < ⌈(tf - t0) / dt⌉ := by
    have h1 := Int.le_ceil ((tf - t0) / dt)
    exact_mod_cast lt_of_lt_of_le hq h1
  have hn0 : (⌈(tf - t0) / dt⌉).toNat ≠ 0 := by omega
  constructor
  · intro hm1
    obtain ⟨k, hk⟩ : ∃ k, (⌈(tf - t0) / dt⌉).toNat - 1 = k + 1 :=
      ⟨(⌈(tf - t0) / dt⌉).toNat - 2, by omega⟩
    by_cases hd1 : state0.length = 1
    · refine ⟨"ValueError: could not broadcast input array", ?_⟩
      simp only [runge_kutta4, arangeLen, if_neg hdt0, ok_bind]
      rw [if_neg hn0, hk]
      simp only [rk4Iter, rk4Step]
      rw [npAdd_left_one _ _ hd1
        (by simp only [List.length_map, hf]; exact hm1), ok_bind]
      rw [npAdd_left_one _ _ hd1
        (by simp only [List.length_map, hf]; exact hm1), ok_bind]
      rw [npAdd_left_one _ _ hd1
        (by simp only [List.length_map, hf]; exact hm1), ok_bind]
      rw [npAdd_eq_vadd (by simp only [List.length_map, hf]), ok_bind]
      rw [npAdd_eq_vadd
        (by simp only [vadd_length, List.length_map, hf, min_self]), ok_bind]
      rw [npAdd_eq_vadd
        (by simp only [vadd_length, List.length_map, hf, min_self]), ok_bind]
      rw [npAdd_left_one _ _ hd1
        (by simp only [List.length_map, vadd_length, hf, min_self]; exact hm1),
        ok_bind]
      rw [npAssignRow_error
        (by simp only [List.length_map, vadd_length, hf, min_self]
            exact fun hh => hmd hh)
        (by simp only [List.length_map, vadd_length, hf, min_self]; exact hm1)]
      simp only [error_bind]
    · refine ⟨"ValueError: operands could not be broadcast together", ?_⟩
      simp only [runge_kutta4, arangeLen, if_neg hdt0, ok_bind]
      rw [if_neg hn0, hk]
      simp only [rk4Iter, rk4Step]
      rw [npAdd_error
        (by simp only [List.length_map, hf]; exact fun hh => hmd hh.symm)
        hd1 (by simp only [List.length_map, hf]; exact hm1)]
      simp only [error_bind]
  · intro hm1
    have hd1 : state0.length ≠ 1 := fun h => hmd (hm1.trans h.symm)
    have hf1 : ∀ s' t', (f s' t' params).length = 1 := fun s' t' => hm1 ▸ hf s' t'
    obtain ⟨l, hl⟩ := rk4Iter_ok_of_one f params dt state0.length hd1 hf1
      ((⌈(tf - t0) / dt⌉).toNat - 1) state0 t0 rfl
    refine ⟨arangeList t0 dt (⌈(tf - t0) / dt⌉).toNat, l, ?_⟩
    simp only [runge_kutta4, arangeLen, if_neg hdt0, ok_bind]
    rw [if_neg hn0, hl, ok_bind]

/-- Witness for the amended C7: a constant length-3 derivative against a
length-2 state satisfies both branches (the error branch concretely). -/
theorem rk4_dim_mismatch_behavior_witness :
    ((3 : Nat) ≠ 1 →
      ∃ e, runge_kutta4 (fun _ _ _ => ([1, 2, 3] : List ℚ)) [(0 : ℚ), 0]
        ((0 : ℚ), (2 : ℚ)) 1 () = .error e) ∧
    ((3 : Nat) = 1 →
      ∃ ts ss, runge_kutta4 (fun _ _ _ => ([1, 2, 3] : List ℚ)) [(0 : ℚ), 0]
        ((0 : ℚ), (2 : ℚ)) 1 () = .ok (ts, ss)) :=
  rk4_dim_mismatch_behavior (fun _ _ _ => ([1, 2, 3] : List ℚ)) [(0 : ℚ), 0] 0 2 1 () 3
    (fun _ _ => rfl) (by norm_num) (by norm_num) (by norm_num) (by norm_num)

/-- C8: for the identically-zero vector field, every state of the
trajectory returned by `runge_kutta4` equals the supplied initial state
exactly, for every valid time span and step. -/
theorem rk4_zero_field_constant {P : Type} (f : List ℚ → ℚ → P → List ℚ)
    (state0 : List ℚ) (t0 tf dt : ℚ) (params : P)
    (hf0 : ∀ s t, f s t params = List.replicate s.length (0 : ℚ))
    (ht : t0 < tf) (hdt : 0 < dt) :
    ∃ ts ss, runge_kutta4 f state0 (t0, tf) dt params = .ok (ts, ss) ∧
      ss ≠ [] ∧ ∀ s ∈ ss, s = state0 := by
  have hf : ∀ s t, s.length = state0.length →
      (f s t params).length = state0.length := by
    intro s t h
    rw [hf0]
    simpa using h
  refine ⟨_, _, runge_kutta4_ok f state0 t0 tf dt params ht hdt hf, ?_, ?_⟩
  · intro hnil
    have hl := classicalTraj_length f params dt
      ((⌈(tf - t0) / dt⌉).toNat - 1) state0 t0
    rw [hnil] at hl
    simp at hl
  · exact classicalTraj_zero_field_mem f params dt hf0 _ state0 t0

/-- Witness for C8: the zero field keeps the state `[3, 4]` constant on
the span `(0, 1)` with step `1/4`. -/
theorem rk4_zero_field_constant_witness :
    ∃ ts ss,
      runge_kutta4 (fun s _ _ => List.replicate s.length (0 : ℚ)) [(3 : ℚ), 4]
          ((0 : ℚ), (1 : ℚ)) (1 / 4) () = .ok (ts, ss) ∧
      ss ≠ [] ∧ ∀ s ∈ ss, s = [(3 : ℚ), 4] :=
  rk4_zero_field_constant (fun s _ _ => List.replicate s.length (0 : ℚ))
    [(3 : ℚ), 4] 0 1 (1 / 4) () (fun _ _ => rfl) (by norm_num) (by norm_num)

/-- C9: the integrator is deterministic — two calls with identical
arguments yield identical trajectories, with no dependence on hidden
state (the embedding is a pure function of its arguments). -/
theorem rk4_deterministic {P : Type} (f g : List ℚ → ℚ → P → List ℚ)
    (s0 s0' : List ℚ) (sp sp' : ℚ × ℚ) (dt dt' : ℚ) (p p' : P)
    (hfg : f = g) (hs : s0 = s0') (hsp : sp = sp') (hdt : dt = dt')
    (hp : p = p') :
    runge_kutta4 f s0 sp dt p = runge_kutta4 g s0' sp' dt' p' := by
  rw [hfg, hs, hsp, hdt, hp]

/-- Witness for C9 at concrete identical arguments. -/
theorem rk4_deterministic_witness :
    runge_kutta4 (fun s _ _ => s) [(1 : ℚ)] ((0 : ℚ), (1 : ℚ)) 1 () =
      runge_kutta4 (fun s _ _ => s) [(1 : ℚ)] ((0 : ℚ), (1 : ℚ)) 1 () :=
  rk4_deterministic (fun s _ _ => s) (fun s _ _ => s) [(1 : ℚ)] [(1 : ℚ)]
    ((0 : ℚ), (1 : ℚ)) ((0 : ℚ), (1 : ℚ)) 1 1 () () rfl rfl rfl rfl rfl

end OdeSolvers
